import Mathlib

/-!
Shallow embedding of `fs/aufs/f_op_sp.c` (aufs special-file operations).

Branches are modelled as a list of writability flags (index 0 = highest
priority).  The per-open state (`OpenState`) carries the dentry's start
branch index, the per-branch presence of the parent's and the entry's
copies, the finfo branch-resident handle array and whether the delegation
file-operation table has been installed.  Outcomes of the external
primitives the file calls (`au_cpup_dirs`, `au_pin`, `au_sio_cpup_simple`,
`au_do_open_nondir`, the branch-native `open`) are supplied as
environments of `Option Int` results (`none` = 0/success).
-/

/-- A branch of the union; `br_perm` is its writability (true = writable). -/
structure Branch where
  br_perm : Bool
deriving DecidableEq, Repr

/-- The test `au_br_writable(br_perm)`: the branch permission allows writing. -/
def au_br_writable (perm : Bool) : Bool := perm

/-- The test `au_br_rdonly(br)`: the branch is read-only. -/
def au_br_rdonly (br : Branch) : Bool := !br.br_perm

/-- The lookup `au_sbr(sb, bindex)`: branch at `bindex` in the superblock's
branch stack. Out-of-range indices default to a read-only branch. -/
def au_sbr (sb : List Branch) (bindex : Nat) : Branch :=
  sb.getD bindex ⟨false⟩

/-- Timestamp state of a branch-resident file (`h_file`). -/
structure HFile where
  atime : Nat
  mtime : Nat
deriving DecidableEq, Repr

/-- The call `file_accessed(h_file)`: refresh the access timestamp. -/
def file_accessed (now : Nat) (h : HFile) : HFile := { h with atime := now }

/-- The call `file_update_time(h_file)`: refresh the modification timestamp. -/
def file_update_time (now : Nat) (h : HFile) : HFile := { h with mtime := now }

/-- The function `aufs_aio_read_sp` (lines 28-54): forward the read to the
branch-native `aio_read` (whose returned byte count or error is `ioRes`),
then refresh the access time when the count is positive and the start
branch is writable (`err > 0 && wbr`). -/
def aufs_aio_read_sp (sb : List Branch) (bstart : Nat) (now : Nat)
    (ioRes : Int) (h : HFile) : Int × HFile :=
  let wbr := au_br_writable (au_sbr sb bstart).br_perm
  if 0 < ioRes ∧ wbr = true then (ioRes, file_accessed now h) else (ioRes, h)

/-- The function `aufs_aio_write_sp` (lines 56-82): forward the write to the
branch-native `aio_write`, then refresh the modification time when the
count is positive and the start branch is writable (`err > 0 && wbr`). -/
def aufs_aio_write_sp (sb : List Branch) (bstart : Nat) (now : Nat)
    (ioRes : Int) (h : HFile) : Int × HFile :=
  let wbr := au_br_writable (au_sbr sb bstart).br_perm
  if 0 < ioRes ∧ wbr = true then (ioRes, file_update_time now h) else (ioRes, h)

/-- State seen by `aufs_release_sp`: the finfo handle array and whether the
generic non-directory teardown has run. -/
structure RelState where
  handles : List Bool
  nondirDone : Bool
deriving DecidableEq, Repr

/-- Modelled from the spec: `aufs_release_nondir` (defined outside this file)
performs the generic non-directory teardown of the logical object: detach
the branch-resident handles and release the registry entry. -/
def aufs_release_nondir (st : RelState) : RelState :=
  { handles := st.handles.map (fun _ => false), nondirDone := true }

/-- The function `aufs_release_sp` (lines 86-98): call the branch-native
`release` on the authoritative handle (its result is `nativeErr`), then
unconditionally run `aufs_release_nondir`; the native result is returned. -/
def aufs_release_sp (nativeErr : Int) (st : RelState) : Int × RelState :=
  (nativeErr, aufs_release_nondir st)

/-- A file-operation entry point: either a branch-native function (tagged by
an arbitrary identifier) or one of this file's delegating functions. -/
inductive FPtr where
  | native : Nat → FPtr
  | sp_open : FPtr
  | sp_read : FPtr
  | sp_write : FPtr
  | sp_release : FPtr
deriving DecidableEq, Repr

/-- The fields of `struct file_operations` this file manipulates; `none`
models a NULL function pointer (`openF` stands for the `open` member). -/
structure FileOperations where
  openF : Option FPtr
  aio_read : Option FPtr
  aio_write : Option FPtr
  release : Option FPtr
deriving DecidableEq, Repr

/-- One slot of the `au_sp_fop` array: the `done` flag and the operation
table (the per-slot spinlock is implicit in the sequential model). -/
structure AuSpFop where
  done : Bool
  fop : FileOperations
deriving DecidableEq, Repr

/-- The access-mode classes of the `au_sp_fop` array (enum lines 103-105). -/
inductive AuSp where
  | FIFO
  | FIFO_R
  | FIFO_W
  | FIFO_RW
deriving DecidableEq, Repr

/-- The switch on `file->f_mode & (FMODE_READ | FMODE_WRITE)` in
`au_init_fop_sp` (lines 141-153); `none` models the `BUG()` default. -/
def au_sp_slot (fmodeRead fmodeWrite : Bool) : Option AuSp :=
  match fmodeRead, fmodeWrite with
  | true, false => some AuSp.FIFO_R
  | false, true => some AuSp.FIFO_W
  | true, true => some AuSp.FIFO_RW
  | false, false => none

/-- The lock-protected slot initialization of `au_init_fop_sp` (lines
156-170): when the slot is not `done`, copy the branch-native table `hops`,
substitute the delegating `aio_read`/`aio_write` when the native entry is
non-NULL, install the delegating `release` unconditionally, and set `done`;
when the slot is already `done`, leave it untouched. -/
def au_sp_slot_init (hops : FileOperations) (p : AuSpFop) : AuSpFop :=
  if p.done then p
  else
    { done := true
      fop :=
        { openF := hops.openF
          aio_read := hops.aio_read.map (fun _ => FPtr.sp_read)
          aio_write := hops.aio_write.map (fun _ => FPtr.sp_write)
          release := some FPtr.sp_release } }

/-- Per-open state of `au_do_open_sp`: the dentry's start branch
(`au_dbstart`), per-branch presence of the parent's copy (`au_h_dptr` on the
parent) and of the entry's own copy, the finfo handle array (`au_h_fptr`
slots) and whether the delegation table has been installed on the file. -/
structure OpenState where
  dbstart : Nat
  parentPres : List Bool
  entryPres : List Bool
  handles : List Bool
  fopSet : Bool
deriving DecidableEq, Repr

/-- Outcomes of the external copy-up primitives called by `au_cpup_sp`
(`none` = success, `some e` = the error returned). -/
structure CpupEnv where
  cpupDirsErr : Option Int
  pinErr : Option Int
  cpupSimpleErr : Option Int
deriving DecidableEq, Repr

/-- Result of `au_cpup_sp`: the error, the state after it, and whether
`au_cpup_dirs` was invoked. -/
structure CpupOut where
  err : Option Int
  st : OpenState
  calledDirs : Bool
deriving DecidableEq, Repr

/-- Modelled from the spec: `au_cpup_dirs` (the directory-only copy-up
primitive, defined outside this file) recursively materializes the parent
and any missing ancestors in branch `bcpup`, stopping at already-present
ancestors; on success the parent has a copy in `bcpup`. -/
def au_cpup_dirs (env : CpupEnv) (st : OpenState) (bcpup : Nat) :
    Option Int × OpenState :=
  match env.cpupDirsErr with
  | some e => (some e, st)
  | none => (none, { st with parentPres := st.parentPres.set bcpup true })

/-- Modelled from the spec: the `au_pin` acquisition followed by
`au_sio_cpup_simple` (lines 191-196).  A pin failure or a simple-copy-up
failure returns that error with the entry and start branch untouched; on
success the entry is created in branch `bcpup` and the start branch of the
dentry becomes `bcpup`.  The pin is released on both paths. -/
def au_pin_and_cpup_simple (env : CpupEnv) (st : OpenState) (bcpup : Nat)
    (calledDirs : Bool) : CpupOut :=
  match env.pinErr with
  | some e => ⟨some e, st, calledDirs⟩
  | none =>
    match env.cpupSimpleErr with
    | some e => ⟨some e, st, calledDirs⟩
    | none =>
      ⟨none,
        { st with entryPres := st.entryPres.set bcpup true, dbstart := bcpup },
        calledDirs⟩

/-- The function `au_cpup_sp` (lines 174-202): under the parent's exclusive
lock, run `au_cpup_dirs` only when the parent has no copy in branch `bcpup`
(`!au_h_dptr(parent, bcpup)`), then pin and run the simple metadata
copy-up. -/
def au_cpup_sp (env : CpupEnv) (st : OpenState) (bcpup : Nat) : CpupOut :=
  if st.parentPres.getD bcpup false = false then
    match au_cpup_dirs env st bcpup with
    | (some e, st1) => ⟨some e, st1, true⟩
    | (none, st1) => au_pin_and_cpup_simple env st1 bcpup true
  else
    au_pin_and_cpup_simple env st bcpup false

/-- The branch-scan loop of `au_do_open_sp` (lines 221-226), entered as
`scanWr sb 0 bend`: visit `bindex = i, i+1, ...` for `fuel` iterations (the
loop bound `bindex < bend`) and return the first index whose branch is not
read-only; `none` models the loop ending with `bcpup` still `-1`. -/
def scanWr (sb : List Branch) : Nat → Nat → Option Nat
  | _, 0 => none
  | i, fuel + 1 =>
    if au_br_rdonly (au_sbr sb i) = true then scanWr sb (i + 1) fuel
    else some i

/-- Outcomes of the external steps of `au_do_open_sp`: the copy-up
environment, `au_do_open_nondir`, and the branch-native `open` callback. -/
structure OpenEnv where
  cpup : CpupEnv
  nondirErr : Option Int
  nativeOpenErr : Option Int
deriving DecidableEq, Repr

/-- Every external step of the open reports success. -/
def OpenEnv.allOk (env : OpenEnv) : Prop :=
  env.cpup.cpupDirsErr = none ∧ env.cpup.pinErr = none ∧
    env.cpup.cpupSimpleErr = none ∧ env.nondirErr = none ∧
    env.nativeOpenErr = none

/-- The errno EROFS (read-only filesystem); the code returns `-EROFS`. -/
def EROFS : Int := 30

/-- The call `au_finfo_fin(file)`: discard the open's finfo state, clearing
the branch-resident handle array. -/
def au_finfo_fin (st : OpenState) : OpenState :=
  { st with handles := st.handles.map (fun _ => false) }

/-- Modelled from the spec: `au_do_open_nondir` (defined outside this file)
prepares the branch-resident handle, storing it in the handle array at the
start branch; on failure the array is untouched. -/
def au_do_open_nondir (env : OpenEnv) (st : OpenState) :
    Option Int × OpenState :=
  match env.nondirErr with
  | some e => (some e, st)
  | none => (none, { st with handles := st.handles.set st.dbstart true })

/-- Lines 240-263 of `au_do_open_sp` (after the copy-up phase): prepare the
handle via `au_do_open_nondir`, call the branch-native `open`; on its
failure run `au_finfo_fin`, on success install the delegation table
(`au_init_fop_sp`). -/
def au_do_open_sp_rest (env : OpenEnv) (st : OpenState) :
    Option Int × OpenState :=
  match au_do_open_nondir env st with
  | (some e, st1) => (some e, st1)
  | (none, st1) =>
    match env.nativeOpenErr with
    | some e => (some e, au_finfo_fin st1)
    | none => (none, { st1 with fopSet := true })

/-- The function `au_do_open_sp` (lines 204-264): when the start branch is
read-only, scan for the first writable branch above it (failing with
`-EROFS` when none exists) and, when the target is still below the current
start branch after relocking, run `au_cpup_sp`; any copy-up error aborts
(`goto out`); otherwise continue with the native open phase. -/
def au_do_open_sp (env : OpenEnv) (sb : List Branch) (st : OpenState) :
    Option Int × OpenState :=
  if au_br_rdonly (au_sbr sb st.dbstart) = true then
    match scanWr sb 0 st.dbstart with
    | some bcpup =>
      if bcpup < st.dbstart then
        match au_cpup_sp env.cpup st bcpup with
        | ⟨some e, st1, _⟩ => (some e, st1)
        | ⟨none, st1, _⟩ => au_do_open_sp_rest env st1
      else au_do_open_sp_rest env st
    | none => (some (-EROFS), st)
  else au_do_open_sp_rest env st

/-- The file-type constants of `mode & S_IFMT`. -/
def S_IFMT : Nat := 0xf000

/-- Named pipe (FIFO) file-type constant. -/
def S_IFIFO : Nat := 0x1000

/-- Character-device file-type constant. -/
def S_IFCHR : Nat := 0x2000

/-- Block-device file-type constant. -/
def S_IFBLK : Nat := 0x6000

/-- Socket file-type constant. -/
def S_IFSOCK : Nat := 0xc000

/-- Regular-file file-type constant (used only in counterexamples). -/
def S_IFREG : Nat := 0x8000

/-- Observable outcome of `au_init_special_fop`: whether the aufs FIFO
operation table was installed on the inode, and whether the `AuDebugOn(1)`
fatal assertion in the `default` case fired. -/
structure SpecialFopInit where
  fifoFopInstalled : Bool
  debugAssert : Bool
deriving DecidableEq, Repr

/-- The function `au_init_special_fop` (lines 273-288): FIFO installs the
aufs operation table and falls through to `break`; character, block and
socket devices just `break`; any other type hits `AuDebugOn(1)`. -/
def au_init_special_fop (mode : Nat) : SpecialFopInit :=
  if mode &&& S_IFMT = S_IFIFO then ⟨true, false⟩
  else if mode &&& S_IFMT = S_IFCHR then ⟨false, false⟩
  else if mode &&& S_IFMT = S_IFBLK then ⟨false, false⟩
  else if mode &&& S_IFMT = S_IFSOCK then ⟨false, false⟩
  else ⟨false, true⟩

/-- The function `au_special_file` (lines 290-306): returns 1 only for
FIFOs (the character/block/socket cases are compiled out by `#if 0`). -/
def au_special_file (mode : Nat) : Nat :=
  if mode &&& S_IFMT = S_IFIFO then 1 else 0

/-! Helper lemmas about the branch scan and the copy-up. -/

theorem scanWr_some (sb : List Branch) :
    ∀ fuel i b, scanWr sb i fuel = some b →
      i ≤ b ∧ b < i + fuel ∧ au_br_rdonly (au_sbr sb b) = false ∧
        ∀ j, i ≤ j → j < b → au_br_rdonly (au_sbr sb j) = true := by
  intro fuel
  induction fuel with
  | zero => intro i b h; simp [scanWr] at h
  | succ n ih =>
    intro i b h
    simp only [scanWr] at h
    cases hB : au_br_rdonly (au_sbr sb i) with
    | true =>
      rw [hB] at h
      simp only [if_pos] at h
      obtain ⟨h1, h2, h3, h4⟩ := ih (i + 1) b h
      refine ⟨by omega, by omega, h3, ?_⟩
      intro j hij hjb
      rcases Nat.eq_or_lt_of_le hij with rfl | hlt
      · exact hB
      · exact h4 j hlt hjb
    | false =>
      rw [hB] at h
      simp only [Bool.false_eq_true, if_false, Option.some.injEq] at h
      subst h
      exact ⟨Nat.le_refl i, by omega, hB, fun j hij hjb => by omega⟩

theorem scanWr_none_of (sb : List Branch) :
    ∀ fuel i, (∀ j, i ≤ j → j < i + fuel → au_br_rdonly (au_sbr sb j) = true) →
      scanWr sb i fuel = none := by
  intro fuel
  induction fuel with
  | zero => intro i _; rfl
  | succ n ih =>
    intro i hall
    have hi : au_br_rdonly (au_sbr sb i) = true :=
      hall i (Nat.le_refl i) (by omega)
    simp only [scanWr, hi, if_pos]
    exact ih (i + 1) (fun j h1 h2 => hall j (by omega) (by omega))

theorem au_cpup_sp_fail_state (env : CpupEnv) (st : OpenState) (bcpup : Nat)
    (e : Int) (h : (au_cpup_sp env st bcpup).err = some e) :
    (au_cpup_sp env st bcpup).st.dbstart = st.dbstart ∧
      (au_cpup_sp env st bcpup).st.entryPres = st.entryPres ∧
      (au_cpup_sp env st bcpup).st.handles = st.handles ∧
      (au_cpup_sp env st bcpup).st.fopSet = st.fopSet := by
  rcases env with ⟨d, p, s⟩
  cases d <;> cases p <;> cases s <;>
    simp_all [au_cpup_sp, au_cpup_dirs, au_pin_and_cpup_simple] <;>
    split at h <;> simp_all

theorem au_cpup_sp_ok (env : CpupEnv) (st : OpenState) (bcpup : Nat)
    (hd : env.cpupDirsErr = none) (hp : env.pinErr = none)
    (hs : env.cpupSimpleErr = none) :
    (au_cpup_sp env st bcpup).err = none ∧
      (au_cpup_sp env st bcpup).st.dbstart = bcpup ∧
      (au_cpup_sp env st bcpup).st.entryPres = st.entryPres.set bcpup true ∧
      (au_cpup_sp env st bcpup).st.handles = st.handles ∧
      (au_cpup_sp env st bcpup).st.fopSet = st.fopSet := by
  rcases env with ⟨d, p, s⟩
  cases hd; cases hp; cases hs
  simp [au_cpup_sp, au_cpup_dirs, au_pin_and_cpup_simple]
  split <;> simp

theorem open_sp_erofs (env : OpenEnv) (sb : List Branch) (st : OpenState)
    (hro : au_br_rdonly (au_sbr sb st.dbstart) = true)
    (hall : ∀ j, j < st.dbstart → au_br_rdonly (au_sbr sb j) = true) :
    au_do_open_sp env sb st = (some (-EROFS), st) := by
  have hscan : scanWr sb 0 st.dbstart = none :=
    scanWr_none_of sb st.dbstart 0 (fun j _ hj => hall j (by omega))
  simp [au_do_open_sp, hro, hscan]

theorem open_sp_rest_ok (env : OpenEnv) (st : OpenState)
    (hnd : env.nondirErr = none) (hno : env.nativeOpenErr = none) :
    au_do_open_sp_rest env st =
      (none, { st with handles := st.handles.set st.dbstart true,
                       fopSet := true }) := by
  simp [au_do_open_sp_rest, au_do_open_nondir, hnd, hno]

theorem open_sp_success (env : OpenEnv) (sb : List Branch) (st : OpenState)
    (b : Nat) (hro : au_br_rdonly (au_sbr sb st.dbstart) = true)
    (hscan : scanWr sb 0 st.dbstart = some b) (hok : env.allOk) :
    (au_do_open_sp env sb st).1 = none ∧
      (au_do_open_sp env sb st).2.dbstart = b ∧
      (au_do_open_sp env sb st).2.entryPres = st.entryPres.set b true ∧
      (au_do_open_sp env sb st).2.fopSet = true := by
  obtain ⟨hsc1, hsc2, hsc3, hsc4⟩ := scanWr_some sb st.dbstart 0 b hscan
  obtain ⟨hok1, hok2, hok3, hok4, hok5⟩ := hok
  have hguard : b < st.dbstart := by omega
  obtain ⟨he, hdb, hep, hhn, hfs⟩ := au_cpup_sp_ok env.cpup st b hok1 hok2 hok3
  cases hr : au_cpup_sp env.cpup st b with
  | mk err st1 cd =>
    rw [hr] at he hdb hep hhn hfs
    simp only at he hdb hep hhn hfs
    subst he
    simp [au_do_open_sp, hro, hscan, hguard, hr,
      open_sp_rest_ok env st1 hok4 hok5, hdb, hep]

theorem open_sp_nocpup (env : OpenEnv) (sb : List Branch) (st : OpenState)
    (hw : au_br_rdonly (au_sbr sb st.dbstart) = false)
    (hnd : env.nondirErr = none) (hno : env.nativeOpenErr = none) :
    au_do_open_sp env sb st =
      (none, { st with handles := st.handles.set st.dbstart true,
                       fopSet := true }) := by
  simp [au_do_open_sp, hw, open_sp_rest_ok env st hnd hno]

theorem au_pin_and_cpup_simple_calledDirs (env : CpupEnv) (st : OpenState)
    (bcpup : Nat) (cd : Bool) :
    (au_pin_and_cpup_simple env st bcpup cd).calledDirs = cd := by
  unfold au_pin_and_cpup_simple
  cases hp : env.pinErr <;> cases hs : env.cpupSimpleErr <;> simp

/-! The claims. -/

/-- C1: when the start branch of a special-file open is read-only, the open
scans the branches strictly below the start index in ascending order and
targets the first writable one; if none exists it fails with `-EROFS`, and
when every external step succeeds the object's start branch ends up at that
first writable branch (which no writable branch of higher priority
precedes). -/
theorem C1_open_scans_for_first_writable (env : OpenEnv) (sb : List Branch)
    (st : OpenState) (hro : au_br_rdonly (au_sbr sb st.dbstart) = true) :
    ((∀ j, j < st.dbstart → au_br_rdonly (au_sbr sb j) = true) →
        au_do_open_sp env sb st = (some (-EROFS), st)) ∧
      (∀ b, scanWr sb 0 st.dbstart = some b →
        au_br_rdonly (au_sbr sb b) = false ∧
          (∀ j, j < b → au_br_rdonly (au_sbr sb j) = true) ∧
          (env.allOk →
            (au_do_open_sp env sb st).1 = none ∧
              (au_do_open_sp env sb st).2.dbstart = b)) := by
  constructor
  · intro hall
    exact open_sp_erofs env sb st hro hall
  · intro b hscan
    obtain ⟨h1, h2, h3, h4⟩ := scanWr_some sb st.dbstart 0 b hscan
    refine ⟨h3, fun j hj => h4 j (Nat.zero_le j) hj, fun hok => ?_⟩
    obtain ⟨g1, g2, g3, g4⟩ := open_sp_success env sb st b hro hscan hok
    exact ⟨g1, g2⟩

/-- Witness for C1: a two-branch stack, writable branch 0 above read-only
start branch 1; the open succeeds and moves the start branch to 0. -/
theorem C1_witness :
    (au_do_open_sp ⟨⟨none, none, none⟩, none, none⟩ [⟨true⟩, ⟨false⟩]
        ⟨1, [false, false], [false, true], [false, false], false⟩).1 = none ∧
      (au_do_open_sp ⟨⟨none, none, none⟩, none, none⟩ [⟨true⟩, ⟨false⟩]
        ⟨1, [false, false], [false, true], [false, false], false⟩).2.dbstart
        = 0 := by
  have h := C1_open_scans_for_first_writable ⟨⟨none, none, none⟩, none, none⟩
    [⟨true⟩, ⟨false⟩] ⟨1, [false, false], [false, true], [false, false], false⟩
    (by decide)
  exact (h.2 0 (by decide)).2.2 ⟨rfl, rfl, rfl, rfl, rfl⟩

/-- C3: when the start branch is read-only and no branch above it is
writable, the open returns `-EROFS` with the state unchanged, so a handle
array that was entirely unset stays entirely unset; the theorem holds for
every environment, including ones whose handle preparation or native open
would fail, showing the error is raised before either is attempted. -/
theorem C3_erofs_before_handles (env : OpenEnv) (sb : List Branch)
    (st : OpenState) (hro : au_br_rdonly (au_sbr sb st.dbstart) = true)
    (hnone : ∀ j, j < st.dbstart → au_br_rdonly (au_sbr sb j) = true)
    (hinit : ∀ b ∈ st.handles, b = false) :
    au_do_open_sp env sb st = (some (-EROFS), st) ∧
      ∀ b ∈ (au_do_open_sp env sb st).2.handles, b = false := by
  have h := open_sp_erofs env sb st hro hnone
  exact ⟨h, by rw [h]; exact hinit⟩

/-- Witness for C3: both branches read-only, a native open that would fail
with -5 is never reached; the open fails with -EROFS and no handle is set. -/
theorem C3_witness :
    au_do_open_sp ⟨⟨none, none, none⟩, none, some (-5)⟩ [⟨false⟩, ⟨false⟩]
      ⟨1, [false, false], [false, true], [false, false], false⟩ =
      (some (-EROFS),
        ⟨1, [false, false], [false, true], [false, false], false⟩) := by
  exact (C3_erofs_before_handles ⟨⟨none, none, none⟩, none, some (-5)⟩
    [⟨false⟩, ⟨false⟩] ⟨1, [false, false], [false, true], [false, false], false⟩
    (by decide) (by decide) (by decide)).1

/-- C4: if the copy-up fails at any step, the open aborts with that error,
the start branch index, the entry copies and the handle array are left
unchanged, and a retried open would scan to the same promotion target. -/
theorem C4_cpup_failure_aborts (env : OpenEnv) (sb : List Branch)
    (st : OpenState) (b : Nat) (e : Int)
    (hro : au_br_rdonly (au_sbr sb st.dbstart) = true)
    (hscan : scanWr sb 0 st.dbstart = some b)
    (hfail : (au_cpup_sp env.cpup st b).err = some e) :
    (au_do_open_sp env sb st).1 = some e ∧
      (au_do_open_sp env sb st).2.dbstart = st.dbstart ∧
      (au_do_open_sp env sb st).2.entryPres = st.entryPres ∧
      (au_do_open_sp env sb st).2.handles = st.handles ∧
      scanWr sb 0 (au_do_open_sp env sb st).2.dbstart = some b := by
  obtain ⟨h1, h2, h3, h4⟩ := scanWr_some sb st.dbstart 0 b hscan
  have hguard : b < st.dbstart := by omega
  obtain ⟨f1, f2, f3, f4⟩ := au_cpup_sp_fail_state env.cpup st b e hfail
  cases hr : au_cpup_sp env.cpup st b with
  | mk err st1 cd =>
    rw [hr] at hfail f1 f2 f3 f4
    simp only at hfail f1 f2 f3 f4
    subst hfail
    simp [au_do_open_sp, hro, hscan, hguard, hr, f1, f2, f3]

/-- Witness for C4: the pin acquisition fails with -13; the open returns
-13 and the start branch is still 1. -/
theorem C4_witness :
    (au_do_open_sp ⟨⟨none, some (-13), none⟩, none, none⟩ [⟨true⟩, ⟨false⟩]
        ⟨1, [false, false], [false, true], [false, false], false⟩).1 =
        some (-13) ∧
      (au_do_open_sp ⟨⟨none, some (-13), none⟩, none, none⟩ [⟨true⟩, ⟨false⟩]
        ⟨1, [false, false], [false, true], [false, false], false⟩).2.dbstart
        = 1 := by
  have h := C4_cpup_failure_aborts ⟨⟨none, some (-13), none⟩, none, none⟩
    [⟨true⟩, ⟨false⟩] ⟨1, [false, false], [false, true], [false, false], false⟩
    0 (-13) (by decide) (by decide) (by decide)
  exact ⟨h.1, h.2.1⟩

/-- C5: a successful promoting open creates exactly one entry copy (at the
target branch); a second open of the same object finds the start branch
already writable, skips the copy-up entirely, creates nothing further and
leaves the start branch at the target. -/
theorem C5_copyup_idempotent (env env2 : OpenEnv) (sb : List Branch)
    (st : OpenState) (b : Nat)
    (hro : au_br_rdonly (au_sbr sb st.dbstart) = true)
    (hscan : scanWr sb 0 st.dbstart = some b)
    (hok : env.allOk) (hok2 : env2.allOk) :
    (au_do_open_sp env sb st).2.entryPres = st.entryPres.set b true ∧
      (au_do_open_sp env2 sb (au_do_open_sp env sb st).2).1 = none ∧
      (au_do_open_sp env2 sb (au_do_open_sp env sb st).2).2.dbstart = b ∧
      (au_do_open_sp env2 sb (au_do_open_sp env sb st).2).2.entryPres =
        (au_do_open_sp env sb st).2.entryPres := by
  obtain ⟨g1, g2, g3, g4⟩ := open_sp_success env sb st b hro hscan hok
  obtain ⟨s1, s2, s3, s4⟩ := scanWr_some sb st.dbstart 0 b hscan
  set st1 := (au_do_open_sp env sb st).2 with hst1
  have hw : au_br_rdonly (au_sbr sb st1.dbstart) = false := by
    rw [g2]; exact s3
  obtain ⟨hok21, hok22, hok23, hok24, hok25⟩ := hok2
  have h2 := open_sp_nocpup env2 sb st1 hw hok24 hok25
  rw [h2]
  exact ⟨g3, rfl, g2, rfl⟩

/-- Witness for C5: after the promoting open, a second open changes no
entry copies and keeps the start branch at 0. -/
theorem C5_witness :
    (au_do_open_sp ⟨⟨none, none, none⟩, none, none⟩ [⟨true⟩, ⟨false⟩]
        ⟨1, [false, false], [false, true], [false, false], false⟩).2.entryPres
        = [true, true] ∧
      (au_do_open_sp ⟨⟨none, none, none⟩, none, none⟩ [⟨true⟩, ⟨false⟩]
        (au_do_open_sp ⟨⟨none, none, none⟩, none, none⟩ [⟨true⟩, ⟨false⟩]
          ⟨1, [false, false], [false, true], [false, false],
            false⟩).2).2.entryPres =
        (au_do_open_sp ⟨⟨none, none, none⟩, none, none⟩ [⟨true⟩, ⟨false⟩]
          ⟨1, [false, false], [false, true], [false, false],
            false⟩).2.entryPres := by
  have h := C5_copyup_idempotent ⟨⟨none, none, none⟩, none, none⟩
    ⟨⟨none, none, none⟩, none, none⟩ [⟨true⟩, ⟨false⟩]
    ⟨1, [false, false], [false, true], [false, false], false⟩ 0
    (by decide) (by decide) ⟨rfl, rfl, rfl, rfl, rfl⟩ ⟨rfl, rfl, rfl, rfl, rfl⟩
  exact ⟨h.1, h.2.2.2⟩

/-- C2 counterexample: on a read-only start branch a delegated write that
returns the positive count 1 leaves the modification timestamp untouched
(the code guards the write-path refresh with `wbr` as well), refuting the
claim that a positive write always refreshes it. -/
theorem C2_counterexample :
    (0 : Int) < 1 ∧
      aufs_aio_write_sp [⟨false⟩] 0 5 1 ⟨0, 0⟩ = (1, ⟨0, 0⟩) ∧
      file_update_time 5 (⟨0, 0⟩ : HFile) ≠ (⟨0, 0⟩ : HFile) := by
  decide

/-- C2 amended: both delegated paths guard the refresh identically: the
write path refreshes the modification time, and the read path the access
time, exactly when the returned count is positive and the serving start
branch is writable; the returned count is forwarded unchanged either way,
and neither path touches the other timestamp. -/
theorem C2_amended_timestamp_refresh (sb : List Branch) (bstart now : Nat)
    (ioRes : Int) (h : HFile) (hm : h.mtime ≠ now) (ha : h.atime ≠ now) :
    ((aufs_aio_write_sp sb bstart now ioRes h).2.mtime = now ↔
        0 < ioRes ∧ au_br_writable (au_sbr sb bstart).br_perm = true) ∧
      ((aufs_aio_read_sp sb bstart now ioRes h).2.atime = now ↔
        0 < ioRes ∧ au_br_writable (au_sbr sb bstart).br_perm = true) ∧
      (aufs_aio_write_sp sb bstart now ioRes h).1 = ioRes ∧
      (aufs_aio_read_sp sb bstart now ioRes h).1 = ioRes ∧
      (aufs_aio_write_sp sb bstart now ioRes h).2.atime = h.atime ∧
      (aufs_aio_read_sp sb bstart now ioRes h).2.mtime = h.mtime := by
  simp only [aufs_aio_write_sp, aufs_aio_read_sp, file_update_time,
    file_accessed]
  split_ifs with hc <;> simp_all

/-- Witness for C2 amended: on a writable branch a positive write refreshes
the modification time and a positive read the access time. -/
theorem C2_amended_witness :
    (aufs_aio_write_sp [⟨true⟩] 0 5 1 ⟨0, 0⟩).2.mtime = 5 ∧
      (aufs_aio_read_sp [⟨true⟩] 0 5 1 ⟨0, 0⟩).2.atime = 5 := by
  have h := C2_amended_timestamp_refresh [⟨true⟩] 0 5 1 ⟨0, 0⟩
    (by decide) (by decide)
  exact ⟨h.1.mpr (by decide), h.2.1.mpr (by decide)⟩

/-- C6: a delegation-table slot is initialized at most once: after one
initialization the `done` flag is set; an already-done slot is never
mutated; a second initialization attempt, even seeing a different
branch-native table, returns the identical slot, so every later open of the
same access-mode class observes the same table instance; and a first-time
initialization installs the copy of the native table with the delegating
read/write entries substituted where present and the delegating release. -/
theorem C6_slot_init_write_once (h1 h2 : FileOperations) (p : AuSpFop) :
    (au_sp_slot_init h1 p).done = true ∧
      (p.done = true → au_sp_slot_init h1 p = p) ∧
      au_sp_slot_init h2 (au_sp_slot_init h1 p) = au_sp_slot_init h1 p ∧
      (p.done = false →
        (au_sp_slot_init h1 p).fop =
          ⟨h1.openF, h1.aio_read.map (fun _ => FPtr.sp_read),
            h1.aio_write.map (fun _ => FPtr.sp_write),
            some FPtr.sp_release⟩) := by
  unfold au_sp_slot_init
  rcases p with ⟨d, f⟩
  cases d <;> simp

/-- Witness for C6: a fresh slot initialized from a native table is not
changed by a second initialization from a different table. -/
theorem C6_witness :
    au_sp_slot_init ⟨none, none, none, none⟩
        (au_sp_slot_init
          ⟨some (FPtr.native 0), some (FPtr.native 1), none,
            some (FPtr.native 2)⟩
          ⟨false, ⟨none, none, none, none⟩⟩) =
      au_sp_slot_init
        ⟨some (FPtr.native 0), some (FPtr.native 1), none,
          some (FPtr.native 2)⟩
        ⟨false, ⟨none, none, none, none⟩⟩ ∧
      au_sp_slot_init ⟨none, none, none, none⟩
        ⟨true, ⟨none, none, none, none⟩⟩ =
        ⟨true, ⟨none, none, none, none⟩⟩ := by
  refine ⟨(C6_slot_init_write_once
    ⟨some (FPtr.native 0), some (FPtr.native 1), none, some (FPtr.native 2)⟩
    ⟨none, none, none, none⟩ ⟨false, ⟨none, none, none, none⟩⟩).2.2.1, ?_⟩
  exact (C6_slot_init_write_once ⟨none, none, none, none⟩
    ⟨none, none, none, none⟩ ⟨true, ⟨none, none, none, none⟩⟩).2.1 rfl

/-- C7: releasing an opened special-file object returns the branch-native
release result unchanged, and irrespective of that result the generic
non-directory teardown completes: the teardown flag is set and every
branch-resident handle is detached. -/
theorem C7_release_teardown (e : Int) (st : RelState) :
    (aufs_release_sp e st).1 = e ∧
      (aufs_release_sp e st).2 = aufs_release_nondir st ∧
      (aufs_release_sp e st).2.nondirDone = true ∧
      ∀ b ∈ (aufs_release_sp e st).2.handles, b = false := by
  refine ⟨rfl, rfl, rfl, ?_⟩
  intro b hb
  simp only [aufs_release_sp, aufs_release_nondir, List.mem_map] at hb
  obtain ⟨a, _, hab⟩ := hb
  exact hab.symm

/-- C8: the copy-up coordinator invokes the directory-only ancestor copy-up
exactly when the parent has no copy in the target branch, and when the
parent is already present it proceeds directly to the pin acquisition and
the simple metadata copy-up. -/
theorem C8_dirs_iff_parent_absent (env : CpupEnv) (st : OpenState)
    (b : Nat) :
    ((au_cpup_sp env st b).calledDirs = true ↔
        st.parentPres.getD b false = false) ∧
      (st.parentPres.getD b false = true →
        au_cpup_sp env st b = au_pin_and_cpup_simple env st b false) := by
  unfold au_cpup_sp
  cases hpp : st.parentPres.getD b false with
  | false =>
    simp only [hpp, if_pos]
    rcases env with ⟨d, p, s⟩
    cases d <;>
      simp [au_cpup_dirs, au_pin_and_cpup_simple_calledDirs]
  | true =>
    simp [hpp, au_pin_and_cpup_simple_calledDirs]

/-- Witness for C8: with the parent already present in branch 0, the
coordinator skips the directory copy-up and goes straight to pin plus
simple copy-up. -/
theorem C8_witness :
    au_cpup_sp ⟨none, none, none⟩
        ⟨1, [true, false], [false, true], [false, false], false⟩ 0 =
      au_pin_and_cpup_simple ⟨none, none, none⟩
        ⟨1, [true, false], [false, true], [false, false], false⟩ 0 false ∧
      (au_cpup_sp ⟨none, none, none⟩
        ⟨1, [false, false], [false, true], [false, false],
          false⟩ 0).calledDirs = true := by
  refine ⟨(C8_dirs_iff_parent_absent ⟨none, none, none⟩
    ⟨1, [true, false], [false, true], [false, false], false⟩ 0).2
      (by decide), ?_⟩
  exact (C8_dirs_iff_parent_absent ⟨none, none, none⟩
    ⟨1, [false, false], [false, true], [false, false], false⟩ 0).1.mpr
    (by decide)

/-- C9 counterexample: a character-device, block-device or socket mode
passes through `au_init_special_fop` without triggering the fatal
assertion (their switch cases just `break`), and `au_special_file` does
not even admit them to this layer, refuting the claim that such types are
signaled as `UnsupportedSpecialType`. -/
theorem C9_counterexample :
    (au_init_special_fop S_IFCHR).debugAssert = false ∧
      (au_init_special_fop S_IFBLK).debugAssert = false ∧
      (au_init_special_fop S_IFSOCK).debugAssert = false ∧
      au_special_file S_IFCHR = 0 := by
  decide

/-- C9 amended: the fatal assertion of `au_init_special_fop` fires exactly
for a mode that is none of the special-file types (not FIFO, character,
block or socket); character, block and socket modes are silently accepted
without the aufs FIFO operation table, which only a FIFO receives, and
`au_special_file` routes only FIFOs to this layer. -/
theorem C9_amended_type_dispatch (mode : Nat) :
    ((au_init_special_fop mode).debugAssert = true ↔
        mode &&& S_IFMT ≠ S_IFIFO ∧ mode &&& S_IFMT ≠ S_IFCHR ∧
          mode &&& S_IFMT ≠ S_IFBLK ∧ mode &&& S_IFMT ≠ S_IFSOCK) ∧
      ((au_init_special_fop mode).fifoFopInstalled = true ↔
        mode &&& S_IFMT = S_IFIFO) ∧
      (au_special_file mode = 1 ↔ mode &&& S_IFMT = S_IFIFO) := by
  unfold au_init_special_fop au_special_file
  split_ifs <;> simp_all

/-- Witness for C9 amended: a regular-file mode trips the assertion, a FIFO
mode installs the table and is admitted by `au_special_file`. -/
theorem C9_amended_witness :
    (au_init_special_fop S_IFREG).debugAssert = true ∧
      (au_init_special_fop S_IFIFO).fifoFopInstalled = true ∧
      au_special_file S_IFIFO = 1 := by
  refine ⟨(C9_amended_type_dispatch S_IFREG).1.mpr (by decide),
    (C9_amended_type_dispatch S_IFIFO).2.1.mpr (by decide),
    (C9_amended_type_dispatch S_IFIFO).2.2.mpr (by decide)⟩

/-- C10: the access-mode dispatch of `au_init_fop_sp` covers exactly the
read-only, write-only and read-write cases; any file with at least one of
the two access flags selects a slot, and a file with neither flag falls
into the fatal `BUG()` branch (`none`). -/
theorem C10_mode_dispatch (r w : Bool) (h : r = true ∨ w = true) :
    (au_sp_slot r w).isSome = true ∧
      au_sp_slot true false = some AuSp.FIFO_R ∧
      au_sp_slot false true = some AuSp.FIFO_W ∧
      au_sp_slot true true = some AuSp.FIFO_RW ∧
      au_sp_slot false false = none := by
  cases r <;> cases w <;> simp_all [au_sp_slot]

/-- Witness for C10: a read-only open selects the read slot. -/
theorem C10_witness :
    (au_sp_slot true false).isSome = true ∧
      au_sp_slot false false = none := by
  have h := C10_mode_dispatch true false (Or.inl rfl)
  exact ⟨h.1, h.2.2.2.2⟩
